import Mathlib

/-!
Verification development for the identity subsystem of the rust-workshop
repository: the `User` aggregate with email/password validation, password
hashing/verification, the Postgres and in-memory storage backends, and the
HTTP handler error-to-status mapping.

Sources embedded (paths relative to the repository root):
  - src/solutions/module9/rust_app/src/core/core.rs (User, UserDetails,
    ApplicationError, validation, hashing, tier transitions)
  - src/solutions/module9/rust_app/src/data_access.rs and
    src/solutions/module10/rust_app/src/data_access.rs (PostgresUsers)
  - src/solutions/module11/rust_app/src/lib.rs (register_user, login,
    get_user_details handlers)
  - src/module7/rust_app/src/data_access.rs (InMemoryDataAccess)
-/

/-- Model of a Rust `char`: its Unicode scalar value together with the two
Unicode class queries the source consults (`char::is_uppercase` and
`char::is_lowercase` use full Unicode tables, which are not reproduced here,
so each character carries the answers; ASCII-only queries and the UTF-8 byte
size are computed from the scalar value). -/
structure RChar where
  code : Nat
  is_uppercase : Bool
  is_lowercase : Bool
deriving DecidableEq, Repr

/-- Rust `char::is_ascii_digit`. -/
def RChar.is_ascii_digit (c : RChar) : Bool :=
  decide (48 ≤ c.code ∧ c.code ≤ 57)

/-- ASCII letter test, used by the email regular expression classes. -/
def RChar.is_ascii_alpha (c : RChar) : Bool :=
  decide ((65 ≤ c.code ∧ c.code ≤ 90) ∨ (97 ≤ c.code ∧ c.code ≤ 122))

/-- Number of bytes of the character in UTF-8, as Rust `String::len` counts
them. Determined by the scalar value. -/
def RChar.utf8Size (c : RChar) : Nat :=
  if c.code < 0x80 then 1
  else if c.code < 0x800 then 2
  else if c.code < 0x10000 then 3
  else 4

/-- An RChar for an ASCII character: for ASCII code points, Rust
`char::is_uppercase` holds exactly on A-Z and `char::is_lowercase` exactly
on a-z. -/
def RChar.ofAscii (c : Char) : RChar :=
  { code := c.toNat
    is_uppercase := decide (65 ≤ c.toNat ∧ c.toNat ≤ 90)
    is_lowercase := decide (97 ≤ c.toNat ∧ c.toNat ≤ 122) }

/-- A Rust string as the list of its characters. -/
abbrev RString := List RChar

/-- An ASCII Rust string from a Lean string literal. -/
def ofAscii (s : String) : RString := s.toList.map RChar.ofAscii

/-- Rust `String::len`: the UTF-8 byte length, not the character count. -/
def utf8Len (s : RString) : Nat := (s.map RChar.utf8Size).sum

/-- Model of the Rust `String` values that can occupy the `password` field of
`UserDetails`. Modelled from the spec: the credential hasher is a salted,
memory-hard algorithm (argon2, an external crate) whose output string
self-describes algorithm, parameters and salt, so it is kept symbolically as
the `phc` constructor carrying the salt and the hashed plaintext; `plain`
stands for any string that is not a well-formed PHC hash string. -/
inductive PasswordString where
  | plain (chars : RString)
  | phc (salt : Nat) (pw : RString)
deriving DecidableEq, Repr

/-- The `ApplicationError` enum of core.rs. Detail strings are kept as Lean
string literals. -/
inductive ApplicationError where
  | UserAlreadyExists
  | UserDoesNotExist
  | IncorrectPassword
  | DatabaseError (detail : String)
  | ApplicationError (detail : String)
deriving DecidableEq, Repr

/-- The `UserDetails` struct of core.rs, fields in source order. -/
structure UserDetails where
  email_address : RString
  password : PasswordString
  age : Option Int
  name : RString
deriving DecidableEq, Repr

/-- The `User` enum of core.rs: `Standard` and `Premium`, both wrapping a
`UserDetails`; `Premium` additionally carries the `is_premium` flag. -/
inductive User where
  | Standard (user_details : UserDetails)
  | Premium (user_details : UserDetails) (is_premium : Bool)
deriving DecidableEq, Repr

/-- Accessor `User::details`. -/
def User.details : User → UserDetails
  | .Standard d => d
  | .Premium d _ => d

/-- Accessor `User::email_address`. -/
def User.email_address (u : User) : RString := u.details.email_address

/-- Accessor `User::name`. -/
def User.name (u : User) : RString := u.details.name

/-- Accessor `User::password`. -/
def User.password (u : User) : PasswordString := u.details.password

/-- Whether a `User` value is the `Premium` variant. -/
def User.isPremiumVariant : User → Bool
  | .Standard _ => false
  | .Premium _ _ => true

/-- The method `User::password_is_valid` of core.rs: byte length at least 8
(Rust `str::len` counts bytes), at least one uppercase character, one
lowercase character and one ASCII digit, checked in that order with the
first failing check determining the error. -/
def User.password_is_valid (password : RString) : Except ApplicationError Unit :=
  if utf8Len password < 8 then
    .error (.ApplicationError "Password must be at least 8 characters long")
  else if !(password.any fun c => c.is_uppercase) then
    .error (.ApplicationError "Password must contain at least one uppercase letter")
  else if !(password.any fun c => c.is_lowercase) then
    .error (.ApplicationError "Password must contain at least one lowercase letter")
  else if !(password.any fun c => c.is_ascii_digit) then
    .error (.ApplicationError "Password must contain at least one digit")
  else
    .ok ()

/-- Character class `[a-zA-Z0-9._%+-]` of the email regular expression
(the local part). -/
def emailLocalClass (c : RChar) : Bool :=
  c.is_ascii_alpha || c.is_ascii_digit ||
    decide (c.code = 46 ∨ c.code = 95 ∨ c.code = 37 ∨ c.code = 43 ∨ c.code = 45)

/-- Character class `[a-zA-Z0-9.-]` of the email regular expression
(the domain part). -/
def emailDomainClass (c : RChar) : Bool :=
  c.is_ascii_alpha || c.is_ascii_digit || decide (c.code = 46 ∨ c.code = 45)

/-- Split a string at the first occurrence of the character with the given
scalar value; none when it does not occur. -/
def splitAtFirstCode (code : Nat) : RString → Option (RString × RString)
  | [] => none
  | c :: rest =>
    if c.code = code then some ([], rest)
    else
      match splitAtFirstCode code rest with
      | some (before, after) => some (c :: before, after)
      | none => none

/-- Split a string at the last occurrence of the character with the given
scalar value. -/
def splitAtLastCode (code : Nat) (s : RString) : Option (RString × RString) :=
  match splitAtFirstCode code s.reverse with
  | some (before, after) => some (after.reverse, before.reverse)
  | none => none

/-- Decision procedure for one match of the anchored regular expression
of `User::email_is_valid`. A string matches iff it decomposes as
local `@` domain `.` tld with the local part nonempty in the local class,
the domain part nonempty in the domain class and the tld at least two ASCII
letters. Since `@` belongs to neither class, the split is at the first `@`;
since the tld class has no dot while the domain class does, the final dot is
the last dot after the `@`. -/
def emailRegexMatch (s : RString) : Bool :=
  match splitAtFirstCode 64 s with
  | none => false
  | some (localPart, rest) =>
    !localPart.isEmpty && localPart.all emailLocalClass &&
      match splitAtLastCode 46 rest with
      | none => false
      | some (dom, tld) =>
        !dom.isEmpty && dom.all emailDomainClass &&
          decide (2 ≤ tld.length) && tld.all RChar.is_ascii_alpha

/-- The method `User::email_is_valid` of core.rs. -/
def User.email_is_valid (input : RString) : Except ApplicationError Unit :=
  if emailRegexMatch input then .ok ()
  else .error (.ApplicationError "Invalid email address")

/-- The method `User::hash` of core.rs. The fresh random salt drawn from
OsRng inside the method is passed as an explicit parameter; argon2 itself
is modelled from the spec as the symbolic PHC string (the internal-error
path of the external algorithm cannot occur in this model, so the method
always succeeds, keeping the fallible signature of the source). -/
def User.hash (salt : Nat) (password : RString) : Except ApplicationError PasswordString :=
  .ok (.phc salt password)

/-- Rust `PasswordHash::new`: parsing a PHC hash string. Modelled from the
spec: exactly the self-describing outputs of the hasher parse, yielding the
salt and the hashed plaintext they carry. -/
def passwordHashNew : PasswordString → Option (Nat × RString)
  | .phc salt pw => some (salt, pw)
  | .plain _ => none

/-- Rust `Argon2::verify_password` on a parsed hash. Modelled from the spec:
the candidate verifies against the hash exactly when it equals the hashed
plaintext. -/
def argon2Verify (candidate : RString) (parsed : Nat × RString) : Bool :=
  decide (candidate = parsed.2)

/-- The method `User::verify_password` of core.rs: parse the stored hash
(parse failure becomes the catch-all error with the given message), then
verify; a mismatch becomes `IncorrectPassword`. -/
def User.verify_password (u : User) (password : RString) : Except ApplicationError Unit :=
  match passwordHashNew u.password with
  | none => .error (.ApplicationError "Failed to parse password hash")
  | some parsed =>
    if argon2Verify password parsed then .ok () else .error .IncorrectPassword

/-- The constructor `User::new` of core.rs: validate the email, validate the
password, then build a `Standard` user with no age and the hashed password.
The salt threaded to `User::hash` is explicit (see `User.hash`). -/
def User.new (salt : Nat) (email_address : RString) (name : RString)
    (password : RString) : Except ApplicationError User :=
  match User.email_is_valid email_address with
  | .error e => .error e
  | .ok _ =>
    match User.password_is_valid password with
    | .error e => .error e
    | .ok _ =>
      match User.hash salt password with
      | .error e => .error e
      | .ok hashed =>
        .ok (.Standard
          { email_address := email_address
            name := name
            age := none
            password := hashed })

/-- The constructor `User::from` of core.rs (named `fromStored` here because
`from` is reserved in Lean): rebuild a `Standard` user from a trusted
persistence read, with no validation and no hashing, and no age. -/
def User.fromStored (email_address : RString) (name : RString)
    (hashed_password : PasswordString) : User :=
  .Standard
    { email_address := email_address
      name := name
      age := none
      password := hashed_password }

/-- The method `User::update_name` of core.rs, as a function on the value. -/
def User.update_name (u : User) (new_name : RString) : User :=
  match u with
  | .Standard d => .Standard { d with name := new_name }
  | .Premium d b => .Premium { d with name := new_name } b

/-- The method `User::update_age` of core.rs, as a function on the value. -/
def User.update_age (u : User) (new_age : Int) : User :=
  match u with
  | .Standard d => .Standard { d with age := some new_age }
  | .Premium d b => .Premium { d with age := some new_age } b

/-- The method `User::update_to_premium` of core.rs: a `Standard` user
becomes `Premium` with the flag set; a `Premium` user is returned as is. -/
def User.update_to_premium : User → User
  | .Standard d => .Premium d true
  | .Premium d b => .Premium d b

/-- JSON values appearing in serialized responses. Rust serializes both
ordinary strings and stored password strings as JSON strings; the model
keeps them as two constructors because it models them as two types. -/
inductive Json where
  | str (s : RString)
  | pwstr (s : PasswordString)
  | num (n : Int)
  | null
deriving DecidableEq, Repr

/-- How serde serializes the optional `age` field. -/
def serializeAge : Option Int → Json
  | some n => .num n
  | none => .null

/-- The serde `Serialize` derive on `UserDetails` with
`rename_all = "camelCase"`: all four fields are emitted, keyed by their
camel-cased names, in declaration order. -/
def UserDetails.serialize (d : UserDetails) : List (String × Json) :=
  [("emailAddress", .str d.email_address),
   ("password", .pwstr d.password),
   ("age", serializeAge d.age),
   ("name", .str d.name)]

/-- The `RegisterUserRequest` payload of core.rs. -/
structure RegisterUserRequest where
  email_address : RString
  password : RString
  name : RString

/-- HTTP status codes produced by the handlers of
solutions/module11/rust_app/src/lib.rs. -/
inductive StatusCode where
  | CREATED
  | OK
  | UNAUTHORIZED
  | NOT_FOUND
  | INTERNAL_SERVER_ERROR
deriving DecidableEq, Repr

/-- The error-to-status match arm shared by the three handlers of
solutions/module11/rust_app/src/lib.rs:
`UserDoesNotExist => NOT_FOUND, _ => INTERNAL_SERVER_ERROR`, with body
`Json(None)` in both cases. -/
def errorBranch (e : ApplicationError) : StatusCode × Option UserDetails :=
  match e with
  | .UserDoesNotExist => (.NOT_FOUND, none)
  | _ => (.INTERNAL_SERVER_ERROR, none)

/-- The `register_user` handler of solutions/module11/rust_app/src/lib.rs.
The call to the injected data-access trait is represented by its outcome
`store_result`; the OsRng salt of `User::new` is explicit. -/
def register_user (salt : Nat) (store_result : Except ApplicationError Unit)
    (payload : RegisterUserRequest) : StatusCode × Option UserDetails :=
  match User.new salt payload.email_address payload.name payload.password with
  | .ok user =>
    match store_result with
    | .ok _ => (.CREATED, some user.details)
    | .error e => errorBranch e
  | .error e => errorBranch e

/-- The `login` handler of solutions/module11/rust_app/src/lib.rs. The
data-access lookup is represented by its outcome `lookup`. -/
def login (lookup : Except ApplicationError User) (payload_password : RString) :
    StatusCode × Option UserDetails :=
  match lookup with
  | .ok user =>
    match user.verify_password payload_password with
    | .ok _ => (.OK, some user.details)
    | .error _ => (.UNAUTHORIZED, none)
  | .error e => errorBranch e

/-- The `get_user_details` handler of solutions/module11/rust_app/src/lib.rs. -/
def get_user_details (lookup : Except ApplicationError User) :
    StatusCode × Option UserDetails :=
  match lookup with
  | .ok user => (.OK, some user.details)
  | .error e => errorBranch e

/-- A database driver error (sqlx::Error is external; only its display
string and whether it is a uniqueness-constraint violation matter to the
claims). -/
structure DbError where
  message : String
  is_unique_violation : Bool
deriving DecidableEq, Repr

/-- A row of the `users` table as selected by
`SELECT email_address, name, password FROM users WHERE email_address = $1`. -/
structure UserRow where
  email_address : RString
  name : RString
  password : PasswordString
deriving DecidableEq, Repr

/-- `PostgresUsers::with_email_address` of
solutions/module9/rust_app/src/data_access.rs (identical in module10): the
driver outcome of `fetch_optional` is the argument; a row is rebuilt with
`User::from`, a missing row and any driver error both become
`UserDoesNotExist`. -/
def postgres_with_email_address (fetch : Except DbError (Option UserRow)) :
    Except ApplicationError User :=
  match fetch with
  | .ok (some data) => .ok (User.fromStored data.email_address data.name data.password)
  | .ok none => .error .UserDoesNotExist
  | .error _ => .error .UserDoesNotExist

/-- `PostgresUsers::store` of solutions/module9/rust_app/src/data_access.rs
(identical in module10): the driver outcome of `fetch_one` on the INSERT is
bound to a discarded variable and `Ok(())` is returned unconditionally. -/
def postgres_store (query_result : Except DbError UserRow) :
    Except ApplicationError Unit :=
  let _rec := query_result
  .ok ()

/-- The bind parameters the INSERT of `PostgresUsers::store` persists for a
user: exactly `email_address()`, `name()` and `password()`. -/
def row_of (u : User) : UserRow :=
  { email_address := u.email_address
    name := u.name
    password := u.password }

/-- Whether a lookup result is the `DatabaseError` variant. -/
def isDatabaseErrorResult : Except ApplicationError User → Bool
  | .error (.DatabaseError _) => true
  | _ => false

/-- The mutex-guarded `Vec<User>` of `InMemoryDataAccess`
(module7/rust_app/src/data_access.rs): its state is the vector contents.
The mutex serializes all access, so every concurrent execution is an
interleaving of the atomic operations below. -/
abbrev InMemoryState := List User

/-- `InMemoryDataAccess::store`: push onto the guarded vector. -/
def in_memory_store (st : InMemoryState) (u : User) : InMemoryState :=
  st ++ [u]

/-- `InMemoryDataAccess::with_email_address`: find the first user with the
given email in the guarded vector and return a clone of it. -/
def in_memory_with_email_address (st : InMemoryState) (email : RString) :
    Option User :=
  st.find? fun u => decide (u.email_address = email)

/-- Claim C4: for every email, the relational backend's find-by-email
returns `UserDoesNotExist` both when no row matches and when the driver
reports any failure; it never returns `DatabaseError`, and on a matching
row it returns the reconstructed user. -/
theorem c4_theorem (e : DbError) (r : UserRow) :
    postgres_with_email_address (.error e) = .error .UserDoesNotExist ∧
    postgres_with_email_address (.ok none) = .error .UserDoesNotExist ∧
    postgres_with_email_address (.ok (some r)) =
      .ok (User.fromStored r.email_address r.name r.password) ∧
    ∀ fetch, isDatabaseErrorResult (postgres_with_email_address fetch) = false := by
  refine ⟨rfl, rfl, rfl, ?_⟩
  rintro (_ | (_ | _)) <;> rfl

/-- Claim C5: `PostgresUsers::store` returns Ok(()) unconditionally,
whatever the driver outcome of the INSERT (success, failure, or a
uniqueness-constraint violation). -/
theorem c5_theorem (query_result : Except DbError UserRow) :
    postgres_store query_result = .ok () := rfl

/-- Claim C8: upgrading a Standard user yields a Premium user with the same
details, upgrading a Premium user returns it unchanged, the upgrade is
idempotent and loses no details, and none of the mutating operations
(update_name, update_age, update_to_premium) turns a Premium user back into
a Standard one. -/
theorem c8_theorem (d : UserDetails) (b : Bool) (u : User) (nm : RString) (a : Int) :
    (User.Standard d).update_to_premium = .Premium d true ∧
    (User.Premium d b).update_to_premium = .Premium d b ∧
    u.update_to_premium.update_to_premium = u.update_to_premium ∧
    u.update_to_premium.details = u.details ∧
    u.update_to_premium.isPremiumVariant = true ∧
    ((User.Premium d b).update_name nm).isPremiumVariant = true ∧
    ((User.Premium d b).update_age a).isPremiumVariant = true :=
  ⟨rfl, rfl, by cases u <;> rfl, by cases u <;> rfl, by cases u <;> rfl, rfl, rfl⟩

/-- Claim C9: a store/find round-trip through the relational backend always
yields the Standard variant with age None: store persists only email, name
and password, and the lookup rebuilds the user with `User::from`, so the
tier and age of the originally stored user do not survive. -/
theorem c9_theorem (u : User) :
    postgres_with_email_address (.ok (some (row_of u))) =
      .ok (.Standard
        { email_address := u.email_address
          password := u.password
          age := none
          name := u.name }) := rfl

/-- Claim C6: for every stored hash produced by `User::hash` and every
candidate plaintext different from the hashed plaintext, `verify_password`
fails with `IncorrectPassword` and never with the parse-failure catch-all
error. -/
theorem c6_theorem (salt : Nat) (p q e n : RString) (h : PasswordString)
    (hh : User.hash salt p = .ok h) (hq : q ≠ p) :
    (User.fromStored e n h).verify_password q = .error .IncorrectPassword ∧
    ∀ msg, (User.fromStored e n h).verify_password q ≠
      .error (.ApplicationError msg) := by
  have hph : h = .phc salt p := by simpa [User.hash] using hh.symm
  subst hph
  constructor
  · simp [User.verify_password, User.fromStored, User.password, User.details,
      passwordHashNew, argon2Verify, hq]
  · intro msg
    simp [User.verify_password, User.fromStored, User.password, User.details,
      passwordHashNew, argon2Verify, hq]

/-- Witness for c6_theorem at a concrete hash and candidate. -/
theorem c6_witness :
    User.hash 0 (ofAscii "Testing!23") = .ok (.phc 0 (ofAscii "Testing!23")) ∧
    ofAscii "wrong" ≠ ofAscii "Testing!23" ∧
    (User.fromStored (ofAscii "a@b.com") (ofAscii "James")
        (.phc 0 (ofAscii "Testing!23"))).verify_password (ofAscii "wrong") =
      .error .IncorrectPassword :=
  ⟨rfl, by decide,
    (c6_theorem 0 (ofAscii "Testing!23") (ofAscii "wrong") (ofAscii "a@b.com")
      (ofAscii "James") (.phc 0 (ofAscii "Testing!23")) rfl (by decide)).1⟩

/-- Claim C7: hashing the same plaintext under two distinct salts yields two
distinct hash strings, and verifying the plaintext against either hash
succeeds. -/
theorem c7_theorem (s1 s2 : Nat) (p e n : RString) (h1 h2 : PasswordString)
    (hs : s1 ≠ s2)
    (hh1 : User.hash s1 p = .ok h1) (hh2 : User.hash s2 p = .ok h2) :
    h1 ≠ h2 ∧
    (User.fromStored e n h1).verify_password p = .ok () ∧
    (User.fromStored e n h2).verify_password p = .ok () := by
  have hp1 : h1 = .phc s1 p := by simpa [User.hash] using hh1.symm
  have hp2 : h2 = .phc s2 p := by simpa [User.hash] using hh2.symm
  subst hp1; subst hp2
  refine ⟨?_, ?_, ?_⟩
  · intro hcontra
    exact hs (by injection hcontra)
  · simp [User.verify_password, User.fromStored, User.password, User.details,
      passwordHashNew, argon2Verify]
  · simp [User.verify_password, User.fromStored, User.password, User.details,
      passwordHashNew, argon2Verify]

/-- Witness for c7_theorem at two concrete salts. -/
theorem c7_witness :
    (0 : Nat) ≠ 1 ∧
    User.hash 0 (ofAscii "Testing!23") = .ok (.phc 0 (ofAscii "Testing!23")) ∧
    User.hash 1 (ofAscii "Testing!23") = .ok (.phc 1 (ofAscii "Testing!23")) ∧
    ((PasswordString.phc 0 (ofAscii "Testing!23")) ≠ .phc 1 (ofAscii "Testing!23") ∧
      (User.fromStored (ofAscii "a@b.com") (ofAscii "James")
          (.phc 0 (ofAscii "Testing!23"))).verify_password (ofAscii "Testing!23") =
        .ok () ∧
      (User.fromStored (ofAscii "a@b.com") (ofAscii "James")
          (.phc 1 (ofAscii "Testing!23"))).verify_password (ofAscii "Testing!23") =
        .ok ()) :=
  ⟨by decide, rfl, rfl,
    c7_theorem 0 1 (ofAscii "Testing!23") (ofAscii "a@b.com") (ofAscii "James")
      (.phc 0 (ofAscii "Testing!23")) (.phc 1 (ofAscii "Testing!23"))
      (by decide) rfl rfl⟩

/-- Case analysis of `User::password_is_valid`: it either fails with a
catch-all validation error, or succeeds and then all four checks passed. -/
theorem password_is_valid_cases (pw : RString) :
    (∃ msg, User.password_is_valid pw = .error (.ApplicationError msg)) ∨
    (User.password_is_valid pw = .ok () ∧ ¬ utf8Len pw < 8 ∧
      pw.any (fun c => c.is_uppercase) = true ∧
      pw.any (fun c => c.is_lowercase) = true ∧
      pw.any (fun c => c.is_ascii_digit) = true) := by
  by_cases h1 : utf8Len pw < 8
  · exact Or.inl ⟨"Password must be at least 8 characters long",
      by simp [User.password_is_valid, h1]⟩
  · cases h2 : pw.any (fun c => c.is_uppercase) with
    | false => exact Or.inl ⟨"Password must contain at least one uppercase letter",
        by simp [User.password_is_valid, h1, h2]⟩
    | true =>
      cases h3 : pw.any (fun c => c.is_lowercase) with
      | false => exact Or.inl ⟨"Password must contain at least one lowercase letter",
          by simp [User.password_is_valid, h1, h2, h3]⟩
      | true =>
        cases h4 : pw.any (fun c => c.is_ascii_digit) with
        | false => exact Or.inl ⟨"Password must contain at least one digit",
            by simp [User.password_is_valid, h1, h2, h3, h4]⟩
        | true =>
          exact Or.inr ⟨by simp [User.password_is_valid, h1, h2, h3, h4], h1, rfl, rfl, rfl⟩

/-- Claim C2 as amended: for every password shorter than 8 UTF-8 bytes
(Rust `str::len` counts bytes, not characters), or containing no uppercase
letter, no lowercase letter, or no ASCII digit, `User::new` returns a
catch-all validation error for any email and name, and no user value is
produced. -/
theorem c2_theorem (salt : Nat) (email name password : RString)
    (h : utf8Len password < 8 ∨
      password.any (fun c => c.is_uppercase) = false ∨
      password.any (fun c => c.is_lowercase) = false ∨
      password.any (fun c => c.is_ascii_digit) = false) :
    ∃ msg, User.new salt email name password = .error (.ApplicationError msg) := by
  by_cases hm : emailRegexMatch email
  · rcases password_is_valid_cases password with ⟨msg, hpv⟩ | ⟨_, h8, hu, hl, hd⟩
    · exact ⟨msg, by simp [User.new, User.email_is_valid, hm, hpv]⟩
    · rcases h with h | h | h | h
      · exact absurd h h8
      · rw [hu] at h; cases h
      · rw [hl] at h; cases h
      · rw [hd] at h; cases h
  · exact ⟨"Invalid email address", by simp [User.new, User.email_is_valid, hm]⟩

/-- Witness for c2_theorem at a concrete short password. -/
theorem c2_witness :
    (utf8Len (ofAscii "abc") < 8 ∨
      (ofAscii "abc").any (fun c => c.is_uppercase) = false ∨
      (ofAscii "abc").any (fun c => c.is_lowercase) = false ∨
      (ofAscii "abc").any (fun c => c.is_ascii_digit) = false) ∧
    ∃ msg, User.new 0 (ofAscii "a@b.com") (ofAscii "James") (ofAscii "abc") =
      .error (.ApplicationError msg) :=
  ⟨Or.inl (by decide),
    c2_theorem 0 (ofAscii "a@b.com") (ofAscii "James") (ofAscii "abc")
      (Or.inl (by decide))⟩

/-- Claim C2 as stated is false on the code: a 7-character password whose
UTF-8 encoding is 11 bytes, with an uppercase letter, a lowercase letter and
an ASCII digit, is accepted by `User::new`, because `str::len` counts bytes.
The password is "Aa1" followed by four U+00E9 (lowercase e-acute, 2 bytes
each, neither uppercase nor an ASCII digit in Unicode). -/
theorem c2_counterexample :
    (ofAscii "Aa1" ++ List.replicate 4 (⟨233, false, true⟩ : RChar)).length = 7 ∧
    User.new 0 (ofAscii "test@test.com") (ofAscii "James")
        (ofAscii "Aa1" ++ List.replicate 4 (⟨233, false, true⟩ : RChar)) =
      .ok (.Standard
        { email_address := ofAscii "test@test.com"
          password := .phc 0 (ofAscii "Aa1" ++ List.replicate 4 (⟨233, false, true⟩ : RChar))
          age := none
          name := ofAscii "James" }) := by
  constructor
  · decide
  · rfl

/-- Claim C1 as stated is false on the code: the serde derive on
`UserDetails` serializes all four fields, so the body of a successful
register response does contain the "password" key. Shown on the spec's own
end-to-end scenario payload. -/
theorem c1_counterexample :
    register_user 0 (.ok ())
        { email_address := ofAscii "a@b.com"
          password := ofAscii "Testing!23"
          name := ofAscii "James" } =
      (.CREATED, some
        { email_address := ofAscii "a@b.com"
          password := .phc 0 (ofAscii "Testing!23")
          age := none
          name := ofAscii "James" }) ∧
    "password" ∈
      (UserDetails.serialize
        { email_address := ofAscii "a@b.com"
          password := .phc 0 (ofAscii "Testing!23")
          age := none
          name := ofAscii "James" }).map Prod.fst := by
  exact ⟨rfl, by decide⟩

/-- Claim C1 as amended: the outward response of a successful register does
contain the password field in the serialized `UserDetails`, but its value is
the PHC hash string produced from the payload password and the fresh salt,
never any plain string — in particular never the raw plaintext password. -/
theorem c1_theorem (salt : Nat) (payload : RegisterUserRequest) (user : User)
    (h : User.new salt payload.email_address payload.name payload.password =
      .ok user) :
    register_user salt (.ok ()) payload = (.CREATED, some user.details) ∧
    ("password", Json.pwstr (.phc salt payload.password)) ∈
      user.details.serialize ∧
    user.details.password = .phc salt payload.password ∧
    ∀ chars, user.details.password ≠ .plain chars := by
  have hres : user = .Standard
      { email_address := payload.email_address
        name := payload.name
        age := none
        password := .phc salt payload.password } := by
    rw [User.new] at h
    cases he : User.email_is_valid payload.email_address with
    | error e => rw [he] at h; cases h
    | ok v =>
      rw [he] at h
      cases hp : User.password_is_valid payload.password with
      | error e => rw [hp] at h; cases h
      | ok w =>
        rw [hp] at h
        simp only [User.hash] at h
        cases h
        rfl
  constructor
  · simp only [register_user, h]
  · subst hres
    refine ⟨?_, rfl, ?_⟩
    · simp [UserDetails.serialize, User.details]
    · intro chars hcontra
      simp [User.details] at hcontra

/-- Witness for c1_theorem at the spec's register scenario payload. -/
theorem c1_witness :
    User.new 0 (ofAscii "a@b.com") (ofAscii "James") (ofAscii "Testing!23") =
      .ok (.Standard
        { email_address := ofAscii "a@b.com"
          password := .phc 0 (ofAscii "Testing!23")
          age := none
          name := ofAscii "James" }) ∧
    (register_user 0 (.ok ())
        { email_address := ofAscii "a@b.com"
          password := ofAscii "Testing!23"
          name := ofAscii "James" } =
      (.CREATED, some
        (User.Standard
          { email_address := ofAscii "a@b.com"
            password := .phc 0 (ofAscii "Testing!23")
            age := none
            name := ofAscii "James" }).details) ∧
      ("password", Json.pwstr (.phc 0 (ofAscii "Testing!23"))) ∈
        (User.Standard
          { email_address := ofAscii "a@b.com"
            password := .phc 0 (ofAscii "Testing!23")
            age := none
            name := ofAscii "James" }).details.serialize ∧
      (User.Standard
        { email_address := ofAscii "a@b.com"
          password := .phc 0 (ofAscii "Testing!23")
          age := none
          name := ofAscii "James" }).details.password =
        .phc 0 (ofAscii "Testing!23") ∧
      ∀ chars,
        (User.Standard
          { email_address := ofAscii "a@b.com"
            password := .phc 0 (ofAscii "Testing!23")
            age := none
            name := ofAscii "James" }).details.password ≠ .plain chars) :=
  ⟨rfl,
    c1_theorem 0
      { email_address := ofAscii "a@b.com"
        password := ofAscii "Testing!23"
        name := ofAscii "James" }
      (.Standard
        { email_address := ofAscii "a@b.com"
          password := .phc 0 (ofAscii "Testing!23")
          age := none
          name := ofAscii "James" })
      rfl⟩

/-- Claim C3 as stated is false on the code: in the login handler the
unauthorized outcome is produced for ANY failure of password verification,
not only `IncorrectPassword`. A user whose stored password is not a
well-formed PHC hash string makes `verify_password` fail with the
parse-failure catch-all error, and the login handler still answers
unauthorized. -/
theorem c3_counterexample :
    (User.fromStored (ofAscii "a@b.com") (ofAscii "James")
        (.plain (ofAscii "garbage"))).verify_password (ofAscii "pw") =
      .error (.ApplicationError "Failed to parse password hash") ∧
    ApplicationError.ApplicationError "Failed to parse password hash" ≠
      .IncorrectPassword ∧
    login
        (.ok (User.fromStored (ofAscii "a@b.com") (ofAscii "James")
          (.plain (ofAscii "garbage")))) (ofAscii "pw") =
      (.UNAUTHORIZED, none) :=
  ⟨rfl, by simp, rfl⟩

/-- Claim C3 as amended: across the three handlers, a `UserDoesNotExist`
from lookup or store maps to not-found; in login ANY failure of password
verification (IncorrectPassword or the hash-parse catch-all error) maps to
unauthorized; every other error maps to a generic internal error; all error
responses carry an empty body, hence no detail string. -/
theorem c3_theorem (e ev : ApplicationError) (u : User) (pw : RString)
    (salt : Nat) (payload : RegisterUserRequest) (regUser : User) :
    (login (.error .UserDoesNotExist) pw = (.NOT_FOUND, none)) ∧
    (e ≠ .UserDoesNotExist →
      login (.error e) pw = (.INTERNAL_SERVER_ERROR, none)) ∧
    (u.verify_password pw = .error ev →
      login (.ok u) pw = (.UNAUTHORIZED, none)) ∧
    (u.verify_password pw = .ok () →
      login (.ok u) pw = (.OK, some u.details)) ∧
    (get_user_details (.error .UserDoesNotExist) = (.NOT_FOUND, none)) ∧
    (e ≠ .UserDoesNotExist →
      get_user_details (.error e) = (.INTERNAL_SERVER_ERROR, none)) ∧
    (get_user_details (.ok u) = (.OK, some u.details)) ∧
    (User.new salt payload.email_address payload.name payload.password =
        .ok regUser →
      register_user salt (.error .UserDoesNotExist) payload =
        (.NOT_FOUND, none)) ∧
    (User.new salt payload.email_address payload.name payload.password =
        .ok regUser → e ≠ .UserDoesNotExist →
      register_user salt (.error e) payload =
        (.INTERNAL_SERVER_ERROR, none)) := by
  have hbranch : e ≠ .UserDoesNotExist → errorBranch e = (.INTERNAL_SERVER_ERROR, none) := by
    intro hne
    cases e with
    | UserDoesNotExist => exact absurd rfl hne
    | UserAlreadyExists => rfl
    | IncorrectPassword => rfl
    | DatabaseError d => rfl
    | ApplicationError d => rfl
  refine ⟨rfl, ?_, ?_, ?_, rfl, ?_, rfl, ?_, ?_⟩
  · intro hne
    simp only [login, errorBranch]
  · intro hv
    simp only [login, hv]
  · intro hv
    simp only [login, hv]
  · intro hne
    simp only [get_user_details, errorBranch]
  · intro hnew
    simp only [register_user, hnew, errorBranch]
  · intro hnew hne
    simp only [register_user, hnew]
    exact hbranch hne

/-- Witness for c3_theorem: a non-UserDoesNotExist error, a user whose
stored password does not parse, and a user whose stored password verifies. -/
theorem c3_witness :
    (ApplicationError.IncorrectPassword ≠ .UserDoesNotExist) ∧
    login (.error .IncorrectPassword) (ofAscii "pw") =
      (.INTERNAL_SERVER_ERROR, none) ∧
    (User.fromStored (ofAscii "a@b.com") (ofAscii "James")
        (.plain (ofAscii "garbage"))).verify_password (ofAscii "pw") =
      .error (.ApplicationError "Failed to parse password hash") ∧
    login
        (.ok (User.fromStored (ofAscii "a@b.com") (ofAscii "James")
          (.plain (ofAscii "garbage")))) (ofAscii "pw") =
      (.UNAUTHORIZED, none) ∧
    User.new 0 (ofAscii "a@b.com") (ofAscii "James") (ofAscii "Testing!23") =
      .ok (.Standard
        { email_address := ofAscii "a@b.com"
          password := .phc 0 (ofAscii "Testing!23")
          age := none
          name := ofAscii "James" }) ∧
    register_user 0 (.error .IncorrectPassword)
        { email_address := ofAscii "a@b.com"
          password := ofAscii "Testing!23"
          name := ofAscii "James" } =
      (.INTERNAL_SERVER_ERROR, none) :=
  ⟨by simp,
    (c3_theorem .IncorrectPassword (.ApplicationError "Failed to parse password hash")
      (User.fromStored (ofAscii "a@b.com") (ofAscii "James")
        (.plain (ofAscii "garbage"))) (ofAscii "pw") 0
      { email_address := ofAscii "a@b.com"
        password := ofAscii "Testing!23"
        name := ofAscii "James" }
      (.Standard
        { email_address := ofAscii "a@b.com"
          password := .phc 0 (ofAscii "Testing!23")
          age := none
          name := ofAscii "James" })).2.1 (by simp),
    rfl,
    (c3_theorem .IncorrectPassword (.ApplicationError "Failed to parse password hash")
      (User.fromStored (ofAscii "a@b.com") (ofAscii "James")
        (.plain (ofAscii "garbage"))) (ofAscii "pw") 0
      { email_address := ofAscii "a@b.com"
        password := ofAscii "Testing!23"
        name := ofAscii "James" }
      (.Standard
        { email_address := ofAscii "a@b.com"
          password := .phc 0 (ofAscii "Testing!23")
          age := none
          name := ofAscii "James" })).2.2.1 rfl,
    rfl,
    (c3_theorem .IncorrectPassword (.ApplicationError "Failed to parse password hash")
      (User.fromStored (ofAscii "a@b.com") (ofAscii "James")
        (.plain (ofAscii "garbage"))) (ofAscii "pw") 0
      { email_address := ofAscii "a@b.com"
        password := ofAscii "Testing!23"
        name := ofAscii "James" }
      (.Standard
        { email_address := ofAscii "a@b.com"
          password := .phc 0 (ofAscii "Testing!23")
          age := none
          name := ofAscii "James" })).2.2.2.2.2.2.2.2 rfl (by simp)⟩

/-- Folding the in-memory store over a batch of users appends them in the
order the lock was acquired. -/
theorem foldl_in_memory_store (l : List User) (init : InMemoryState) :
    l.foldl in_memory_store init = init ++ l := by
  induction l generalizing init with
  | nil => simp
  | cons x xs ih =>
    simp only [List.foldl_cons, in_memory_store, ih, List.append_assoc,
      List.singleton_append]

/-- A linear scan finds the unique element satisfying the email test. -/
theorem find_unique_email (l : List User) (u : User) (hu : u ∈ l)
    (huniq : ∀ v ∈ l, v.email_address = u.email_address → v = u) :
    (l.find? fun v => decide (v.email_address = u.email_address)) = some u := by
  induction l with
  | nil => cases hu
  | cons x xs ih =>
    by_cases hx : x.email_address = u.email_address
    · have hxu : x = u := huniq x (List.mem_cons_self x xs) hx
      rw [List.find?_cons_of_pos _ (by simp [hx])]
      rw [hxu]
    · rw [List.find?_cons_of_neg _ (by simp [hx])]
      have hutail : u ∈ xs := by
        rcases List.mem_cons.mp hu with h | h
        · subst h; exact absurd rfl hx
        · exact h
      exact ih hutail fun v hv hev => huniq v (List.mem_cons_of_mem x hv) hev

/-- Claim C10: all access to the backing vector of `InMemoryDataAccess` is
serialized through its mutex, so any concurrent execution of N register
calls is an interleaving, i.e. some permutation, of the N atomic store
operations; every store succeeds (the operation is total), and afterwards
each of the N users with pairwise-distinct emails is retrievable by its
email — no lost writes. -/
theorem c10_theorem (users order : List User)
    (hdist : users.Pairwise fun a b => a.email_address ≠ b.email_address)
    (hperm : order.Perm users) (u : User) (hu : u ∈ users) :
    in_memory_with_email_address (order.foldl in_memory_store [])
      u.email_address = some u := by
  rw [in_memory_with_email_address, foldl_in_memory_store, List.nil_append]
  apply find_unique_email
  · exact hperm.mem_iff.mpr hu
  · intro v hv hev
    have hvu : v ∈ users := hperm.mem_iff.mp hv
    by_contra hne
    have hsymm : Symmetric fun a b : User => a.email_address ≠ b.email_address :=
      fun a b hab => fun hba => hab hba.symm
    exact hdist.forall hsymm hvu hu hne hev

/-- Witness for c10_theorem: two users registered concurrently, executed in
the reverse interleaving, both remain retrievable. -/
theorem c10_witness :
    ([User.fromStored (ofAscii "a@b.com") (ofAscii "A") (.phc 0 (ofAscii "PwA")),
      User.fromStored (ofAscii "b@c.com") (ofAscii "B") (.phc 1 (ofAscii "PwB"))].Pairwise
        fun a b => a.email_address ≠ b.email_address) ∧
    ([User.fromStored (ofAscii "b@c.com") (ofAscii "B") (.phc 1 (ofAscii "PwB")),
      User.fromStored (ofAscii "a@b.com") (ofAscii "A") (.phc 0 (ofAscii "PwA"))].Perm
      [User.fromStored (ofAscii "a@b.com") (ofAscii "A") (.phc 0 (ofAscii "PwA")),
       User.fromStored (ofAscii "b@c.com") (ofAscii "B") (.phc 1 (ofAscii "PwB"))]) ∧
    (User.fromStored (ofAscii "a@b.com") (ofAscii "A") (.phc 0 (ofAscii "PwA")) ∈
      [User.fromStored (ofAscii "a@b.com") (ofAscii "A") (.phc 0 (ofAscii "PwA")),
       User.fromStored (ofAscii "b@c.com") (ofAscii "B") (.phc 1 (ofAscii "PwB"))]) ∧
    in_memory_with_email_address
        ([User.fromStored (ofAscii "b@c.com") (ofAscii "B") (.phc 1 (ofAscii "PwB")),
          User.fromStored (ofAscii "a@b.com") (ofAscii "A") (.phc 0 (ofAscii "PwA"))].foldl
          in_memory_store [])
        (User.fromStored (ofAscii "a@b.com") (ofAscii "A")
          (.phc 0 (ofAscii "PwA"))).email_address =
      some (User.fromStored (ofAscii "a@b.com") (ofAscii "A") (.phc 0 (ofAscii "PwA"))) :=
  ⟨by simp [List.pairwise_cons]; decide,
    List.Perm.swap _ _ _,
    by simp,
    c10_theorem
      [User.fromStored (ofAscii "a@b.com") (ofAscii "A") (.phc 0 (ofAscii "PwA")),
       User.fromStored (ofAscii "b@c.com") (ofAscii "B") (.phc 1 (ofAscii "PwB"))]
      [User.fromStored (ofAscii "b@c.com") (ofAscii "B") (.phc 1 (ofAscii "PwB")),
       User.fromStored (ofAscii "a@b.com") (ofAscii "A") (.phc 0 (ofAscii "PwA"))]
      (by simp [List.pairwise_cons]; decide)
      (List.Perm.swap _ _ _)
      (User.fromStored (ofAscii "a@b.com") (ofAscii "A") (.phc 0 (ofAscii "PwA")))
      (by simp)⟩
